import Mathlib

/-!
Verification of the Music Assistant metadata-matching core.

Strings are modelled as `List Char`; each Python string operation used in
`music_assistant/utils.py` and `music_assistant/helpers/compare.py` is
embedded as an executable Lean function with the same semantics
(`str.lower`, `str.split`, `str.replace`, `str.strip`, `str.title`,
`in`, `startswith`, `endswith`, the `re.sub` alphanumeric filter and the
unidecode transliteration step).
-/

set_option maxRecDepth 1000000

namespace MusicAssistant

/-- Python `str.lower` on one character (ASCII case mapping). -/
def lowerChar (c : Char) : Char :=
  if 65 ≤ c.toNat ∧ c.toNat ≤ 90 then Char.ofNat (c.toNat + 32) else c

/-- Python `str.upper` on one character (ASCII case mapping). -/
def upperChar (c : Char) : Char :=
  if 97 ≤ c.toNat ∧ c.toNat ≤ 122 then Char.ofNat (c.toNat - 32) else c

/-- Python `str.lower`. -/
def pyLower (s : List Char) : List Char := s.map lowerChar

/-- The character class `[a-zA-Z0-9]` of the regex in `get_compare_string`. -/
def isAsciiAlnum (c : Char) : Bool :=
  (65 ≤ c.toNat && c.toNat ≤ 90) || (97 ≤ c.toNat && c.toNat ≤ 122) ||
    (48 ≤ c.toNat && c.toNat ≤ 57)

/-- A cased character, as used by Python `str.title` word boundaries
(ASCII letters; all inputs reaching `.title()` in the code are ASCII). -/
def isCasedChar (c : Char) : Bool :=
  (65 ≤ c.toNat && c.toNat ≤ 90) || (97 ≤ c.toNat && c.toNat ≤ 122)

/-- `leadsWith p s` is true when `p` is an initial segment of `s`
(Python `str.startswith`). -/
def leadsWith : List Char → List Char → Bool
  | [], _ => true
  | _ :: _, [] => false
  | a :: as, b :: bs => a == b && leadsWith as bs

/-- Python `str.endswith`. -/
def trailsWith (p s : List Char) : Bool := leadsWith p.reverse s.reverse

/-- Locate the first occurrence of `sep` in `s`; returns the part before it
and the part after it. -/
def findSplit (sep : List Char) : List Char → Option (List Char × List Char)
  | [] => if sep.isEmpty then some ([], []) else none
  | c :: rest =>
    if leadsWith sep (c :: rest) then some ([], (c :: rest).drop sep.length)
    else
      match findSplit sep rest with
      | some (pre, post) => some (c :: pre, post)
      | none => none

/-- Python `sub in s` (substring containment). -/
def pyContains (sub s : List Char) : Bool := (findSplit sub s).isSome

/-- Fuelled splitting loop behind `pySplit`; the fuel bounds the number of
separator occurrences, which is at most the length of the string. -/
def pySplitFuel (sep : List Char) : Nat → List Char → List (List Char)
  | 0, s => [s]
  | Nat.succ n, s =>
    match findSplit sep s with
    | none => [s]
    | some (pre, post) => pre :: pySplitFuel sep n post

/-- Python `str.split(sep)` for a non-empty separator: split at every
non-overlapping occurrence, left to right, keeping empty parts. -/
def pySplit (sep s : List Char) : List (List Char) :=
  if sep.isEmpty then [s] else pySplitFuel sep (s.length + 1) s

/-- Python `str.replace(old, new)` for a non-empty `old`. -/
def pyReplace (old new s : List Char) : List Char :=
  List.intercalate new (pySplit old s)

/-- Python `str.strip()`: drop whitespace from both ends. -/
def pyStrip (s : List Char) : List Char :=
  ((s.dropWhile Char.isWhitespace).reverse.dropWhile Char.isWhitespace).reverse

/-- Python `str.title` loop: a cased character is uppercased after an
uncased one and lowercased after a cased one. -/
def pyTitleAux : Bool → List Char → List Char
  | _, [] => []
  | prevCased, c :: rest =>
    if isCasedChar c then
      (if prevCased then lowerChar c else upperChar c) :: pyTitleAux true rest
    else c :: pyTitleAux false rest

/-- Python `str.title`. -/
def pyTitle (s : List Char) : List Char := pyTitleAux false s

/-- Modelled from the spec: the transliteration step of the Normalizer (the
external `unidecode` library, which `src` imports but does not define):
every ASCII character maps to itself, accented Latin letters map to their
closest unaccented ASCII equivalents, and characters outside the table map
to the empty string. -/
def unidecodeChar (c : Char) : List Char :=
  if c.toNat < 128 then [c]
  else if c = 'á' ∨ c = 'à' ∨ c = 'â' ∨ c = 'ä' ∨ c = 'ã' ∨ c = 'å' then ['a']
  else if c = 'é' ∨ c = 'è' ∨ c = 'ê' ∨ c = 'ë' then ['e']
  else if c = 'í' ∨ c = 'ì' ∨ c = 'î' ∨ c = 'ï' then ['i']
  else if c = 'ó' ∨ c = 'ò' ∨ c = 'ô' ∨ c = 'ö' ∨ c = 'õ' then ['o']
  else if c = 'ú' ∨ c = 'ù' ∨ c = 'û' ∨ c = 'ü' then ['u']
  else if c = 'Á' ∨ c = 'À' ∨ c = 'Â' ∨ c = 'Ä' ∨ c = 'Ã' ∨ c = 'Å' then ['A']
  else if c = 'É' ∨ c = 'È' ∨ c = 'Ê' ∨ c = 'Ë' then ['E']
  else if c = 'Í' ∨ c = 'Ì' ∨ c = 'Î' ∨ c = 'Ï' then ['I']
  else if c = 'Ó' ∨ c = 'Ò' ∨ c = 'Ô' ∨ c = 'Ö' ∨ c = 'Õ' then ['O']
  else if c = 'Ú' ∨ c = 'Ù' ∨ c = 'Û' ∨ c = 'Ü' then ['U']
  else if c = 'ñ' then ['n']
  else if c = 'Ñ' then ['N']
  else if c = 'ç' then ['c']
  else if c = 'Ç' then ['C']
  else if c = 'ß' then ['s', 's']
  else []

/-- `get_compare_string` from `helpers/compare.py` (also in `utils.py`):
unidecode, keep only `[a-zA-Z0-9]`, lowercase. -/
def get_compare_string (input_str : List Char) : List Char :=
  pyLower ((input_str.flatMap unidecodeChar).filter isAsciiAlnum)

/-- `compare_strings` from `helpers/compare.py`: case-insensitive equality,
with a canonicalized fallback unless `strict`. -/
def compare_strings (str1 str2 : List Char) (strict : Bool) : Bool :=
  let m := pyLower str1 == pyLower str2
  if !m && !strict then get_compare_string str1 == get_compare_string str2 else m

/-- `get_version_substitute` from `utils.py`. -/
def get_version_substitute (version_str : List Char) : List Char :=
  let v0 := pyLower version_str
  let v1 :=
    if pyContains "edition".data v0 || pyContains "edit".data v0 then
      pyReplace " edit ".data " version".data
        (pyReplace " edition".data " version".data v0)
    else v0
  let v2 := if leadsWith "the ".data v1 then (pySplit "the ".data v1).getD 1 [] else v1
  let v3 :=
    if pyContains "radio mix".data v2 then "radio version".data
    else if pyContains "video mix".data v2 then "video version".data
    else if pyContains "spanglish".data v2 || pyContains "spanish".data v2 then
      "spanish version".data
    else if trailsWith "remaster".data v2 then "remaster".data
    else v2
  pyStrip v3

/-- The two closing-bracket markers of `parse_title_and_version`. -/
def endSplitters : List (List Char) := [")".data, "]".data]

/-- The ignore vocabulary of `parse_title_and_version`. -/
def ignoreWords : List (List Char) :=
  ["feat.".data, "featuring".data, "ft.".data, "with ".data, " & ".data, "explicit".data]

/-- The version vocabulary of `parse_title_and_version`. -/
def versionWords : List (List Char) :=
  ["version".data, "live".data, "edit".data, "remix".data, "mix".data, "acoustic".data,
    " instrumental".data, "karaoke".data, "remaster".data, "versie".data, "radio".data,
    "unplugged".data, "disco".data]

/-- The ordered splitter list of `parse_title_and_version`. -/
def titleSplitters : List (List Char) :=
  [" (".data, " [".data, " - ".data, " (".data, " [".data, "-".data]

/-- The end-splitter loop of `parse_title_and_version`: cut a part at the
first `)` or `]`. -/
def trimEnd (part : List Char) : List Char :=
  endSplitters.foldl
    (fun p e => if pyContains e p then (pySplit e p).getD 0 [] else p) part

/-- The body of the inner `for title_part in title_parts` loop of
`parse_title_and_version`, acting on the state `(title, version)`. -/
def processPart (splitter : List Char) (st : List Char × List Char)
    (part0 : List Char) : List Char × List Char :=
  let part := trimEnd part0
  let t1 := ignoreWords.foldl
    (fun t ign =>
      if pyContains ign part then (pySplit (splitter ++ part) t).getD 0 [] else t)
    st.1
  versionWords.foldl
    (fun st2 vw =>
      if pyContains vw part then ((pySplit (splitter ++ part) st2.1).getD 0 [], part)
      else st2)
    (t1, st.2)

/-- One iteration of the outer `for splitter in ...` loop of
`parse_title_and_version`: the parts are computed once from the current
title, then folded over while the title evolves. -/
def processSplitter (st : List Char × List Char) (splitter : List Char) :
    List Char × List Char :=
  if pyContains splitter st.1 then (pySplit splitter st.1).foldl (processPart splitter) st
  else st

/-- `parse_title_and_version` from `utils.py`. -/
def parse_title_and_version (track_title : List Char)
    (track_version : Option (List Char)) : List Char × List Char :=
  let st := titleSplitters.foldl processSplitter (pyLower track_title, [])
  let title := pyTitle (pyStrip st.1)
  let version :=
    if st.2.isEmpty then
      match track_version with
      | some tv => if tv.isEmpty then st.2 else tv
      | none => st.2
    else st.2
  (title, pyTitle (get_version_substitute version))

/-- Modelled from the spec: the `Artist` record of
`music_assistant/models/media_types.py`, which is imported by
`helpers/compare.py` but not part of the sources; only the fields the
matching core reads (spec section 3). -/
structure Artist where
  name : List Char

/-- Modelled from the spec: the `Album` record of
`music_assistant/models/media_types.py` (spec section 3); `upc` and `year`
are optional, absent or empty values are falsy in Python. -/
structure Album where
  provider : List Char
  item_id : List Char
  upc : Option (List Char)
  name : List Char
  version : List Char
  artist : Artist
  year : Option Int

/-- Modelled from the spec: the `Track` record of
`music_assistant/models/media_types.py` (spec section 3); an absent
`albums` sequence is modelled as the empty list (both are falsy in
Python, so `albums or [album]` treats them alike), and the fractional
duration in seconds is modelled as a rational number. -/
structure Track where
  provider : List Char
  item_id : List Char
  isrc : Option (List Char)
  name : List Char
  version : List Char
  artists : List Artist
  albums : List Album
  album : Album
  duration : Rat

/-- Python truthiness of an optional string: `None` and `""` are falsy. -/
def truthyOpt : Option (List Char) → Bool
  | none => false
  | some s => !s.isEmpty

/-- `compare_artists` from `helpers/compare.py`: true when some pair of
artist names matches non-strictly. -/
def compare_artists (left_artists right_artists : List Artist) : Bool :=
  left_artists.any fun l => right_artists.any fun r =>
    compare_strings l.name r.name false

/-- `compare_album` from `helpers/compare.py`: the ordered rule chain for
albums. -/
def compare_album (left_album right_album : Album) : Bool :=
  if left_album.provider == right_album.provider &&
      left_album.item_id == right_album.item_id then true
  else if truthyOpt left_album.upc && left_album.upc == right_album.upc then true
  else if !(compare_strings left_album.name right_album.name false) then false
  else if !(compare_strings left_album.version right_album.version false) then false
  else if !(compare_strings left_album.artist.name right_album.artist.name false) then
    false
  else if left_album.year != right_album.year then false
  else true

/-- `compare_albums` from `helpers/compare.py`: true when some pair of
albums matches. -/
def compare_albums (left_albums right_albums : List Album) : Bool :=
  left_albums.any fun l => right_albums.any fun r => compare_album l r

/-- The album set a track contributes to the album-overlap rule:
`track.albums or [track.album]`. -/
def resolvedAlbums (t : Track) : List Album :=
  if t.albums.isEmpty then [t.album] else t.albums

/-- `compare_track` from `helpers/compare.py`: the ordered rule chain for
tracks. -/
def compare_track (left_track right_track : Track) : Bool :=
  if left_track.provider == right_track.provider &&
      left_track.item_id == right_track.item_id then true
  else if truthyOpt left_track.isrc && left_track.isrc == right_track.isrc then true
  else if !(compare_strings left_track.name right_track.name false) then false
  else if !(compare_strings left_track.version right_track.version false) then false
  else if !(compare_artists left_track.artists right_track.artists) then false
  else if !(compare_albums (resolvedAlbums left_track) (resolvedAlbums right_track)
      || decide (|left_track.duration - right_track.duration| ≤ 5)) then false
  else true

/-! Helper lemmas about the string primitives. -/

theorem beqComm {α : Type} [BEq α] [LawfulBEq α] (a b : α) : (a == b) = (b == a) := by
  by_cases h : a = b
  · subst h; rfl
  · rw [beq_false_of_ne h, beq_false_of_ne (Ne.symm h)]

theorem bneComm {α : Type} [BEq α] [LawfulBEq α] (a b : α) : (a != b) = (b != a) := by
  simp only [bne, beqComm]

theorem toNat_lowerChar (c : Char) :
    (lowerChar c).toNat = if 65 ≤ c.toNat ∧ c.toNat ≤ 90 then c.toNat + 32 else c.toNat := by
  unfold lowerChar
  by_cases h : 65 ≤ c.toNat ∧ c.toNat ≤ 90
  · rw [if_pos h, if_pos h, Char.ofNat, dif_pos]
    · rfl
    · exact Or.inl (by omega)
  · rw [if_neg h, if_neg h]

theorem lowerChar_eq_self (c : Char) (h : ¬(65 ≤ c.toNat ∧ c.toNat ≤ 90)) :
    lowerChar c = c := if_neg h

theorem isAsciiAlnum_iff (c : Char) :
    isAsciiAlnum c = true ↔
      (65 ≤ c.toNat ∧ c.toNat ≤ 90) ∨ (97 ≤ c.toNat ∧ c.toNat ≤ 122) ∨
        (48 ≤ c.toNat ∧ c.toNat ≤ 57) := by
  simp [isAsciiAlnum, Bool.or_eq_true, Bool.and_eq_true, decide_eq_true_iff, and_assoc,
    or_assoc]

theorem leadsWith_iff (p s : List Char) : leadsWith p s = true ↔ s.take p.length = p := by
  induction p generalizing s with
  | nil => simp [leadsWith]
  | cons a as ih =>
    cases s with
    | nil => simp [leadsWith]
    | cons b bs =>
      simp only [leadsWith, Bool.and_eq_true, beq_iff_eq, List.length_cons,
        List.take_succ_cons, List.cons.injEq, ih]
      tauto

theorem leadsWith_append (p s : List Char) (h : leadsWith p s = true) :
    s = p ++ s.drop p.length := by
  have := (leadsWith_iff p s).mp h
  conv_lhs => rw [← List.take_append_drop p.length s]
  rw [this]

theorem leadsWith_append_self (p t : List Char) : leadsWith p (p ++ t) = true := by
  induction p with
  | nil => rfl
  | cons a as ih => simp [leadsWith, ih]

theorem eq_nil_of_leadsWith_nil (p : List Char) (h : leadsWith p [] = true) : p = [] := by
  cases p with
  | nil => rfl
  | cons a as => simp [leadsWith] at h

theorem findSplit_of_leads (sep s : List Char) (hsep : sep ≠ [])
    (h : leadsWith sep s = true) :
    findSplit sep s = some ([], s.drop sep.length) := by
  cases s with
  | nil => exact absurd (eq_nil_of_leadsWith_nil sep h) hsep
  | cons c rest => simp [findSplit, h]

theorem findSplit_eq_none (sep s : List Char) (h : pyContains sep s = false) :
    findSplit sep s = none := by
  cases hf : findSplit sep s with
  | none => rfl
  | some p => rw [pyContains, hf] at h; simp at h

theorem pySplitFuel_ne_nil (sep : List Char) (n : Nat) (s : List Char) :
    pySplitFuel sep n s ≠ [] := by
  cases n with
  | zero => simp [pySplitFuel]
  | succ m =>
    unfold pySplitFuel
    cases findSplit sep s with
    | none => simp
    | some p => simp

theorem pySplit_ne_nil (sep s : List Char) : pySplit sep s ≠ [] := by
  unfold pySplit
  by_cases h : sep.isEmpty
  · simp [h]
  · simp only [h]
    exact pySplitFuel_ne_nil sep (s.length + 1) s

theorem one_le_pySplit_length (sep s : List Char) : 1 ≤ (pySplit sep s).length := by
  have := pySplit_ne_nil sep s
  cases h : pySplit sep s with
  | nil => exact absurd h this
  | cons a l => simp

theorem pySplitFuel_of_none (sep s : List Char) (h : findSplit sep s = none) (n : Nat) :
    pySplitFuel sep n s = [s] := by
  cases n with
  | zero => rfl
  | succ m => unfold pySplitFuel; rw [h]

theorem pySplit_of_leads (sep s : List Char) (hsep : sep ≠ [])
    (h : leadsWith sep s = true) :
    pySplit sep s = [] :: pySplitFuel sep s.length (s.drop sep.length) := by
  have hne : sep.isEmpty = false := by
    cases sep with
    | nil => exact absurd rfl hsep
    | cons a as => rfl
  unfold pySplit
  rw [hne]
  simp only [Bool.false_eq_true, if_false, pySplitFuel, findSplit_of_leads sep s hsep h]

theorem two_le_pySplit_length_of_leads (sep s : List Char) (hsep : sep ≠ [])
    (h : leadsWith sep s = true) : 2 ≤ (pySplit sep s).length := by
  rw [pySplit_of_leads sep s hsep h]
  have := pySplitFuel_ne_nil sep s.length (s.drop sep.length)
  cases hf : pySplitFuel sep s.length (s.drop sep.length) with
  | nil => exact absurd hf this
  | cons a l => simp [hf]

theorem pySplit_of_leads_of_no_more (sep r : List Char) (hsep : sep ≠ [])
    (h : pyContains sep r = false) :
    pySplit sep (sep ++ r) = [[], r] := by
  have hl : leadsWith sep (sep ++ r) = true := leadsWith_append_self sep r
  rw [pySplit_of_leads sep (sep ++ r) hsep hl]
  rw [List.drop_left]
  rw [pySplitFuel_of_none sep r (findSplit_eq_none sep r h)]

theorem flatMap_id_on (u : Char → List Char) (l : List Char)
    (h : ∀ c ∈ l, u c = [c]) : l.flatMap u = l := by
  induction l with
  | nil => rfl
  | cons a as ih =>
    simp only [List.flatMap_cons, h a (List.mem_cons_self a as)]
    rw [ih fun c hc => h c (List.mem_cons_of_mem a hc)]
    rfl

theorem map_id_on (f : Char → Char) (l : List Char) (h : ∀ c ∈ l, f c = c) :
    l.map f = l := by
  rw [List.map_congr_left h]
  exact List.map_id' l

/-! Claim theorems. -/

/-- Claim C1, counterexample: `parse_title_and_version` on
"Hello World (Radio Edit)" with no fallback version does not return the
version "Radio Version"; the substitution of " edit " needs a trailing
space, which "radio edit" lacks. -/
theorem claim_C1_counterexample :
    (parse_title_and_version "Hello World (Radio Edit)".data none).2 ≠
      "Radio Version".data := by decide

/-- Claim C1, amended: `parse_title_and_version` on
"Hello World (Radio Edit)" with no fallback version returns the title
"Hello World" and the version "Radio Edit". -/
theorem claim_C1 :
    parse_title_and_version "Hello World (Radio Edit)".data none =
      ("Hello World".data, "Radio Edit".data) := by decide

/-- Claim C2, counterexample: `parse_title_and_version` on
"Song Title feat. Someone (Remix)" returns a title that still contains the
"feat." clause: the clause precedes the first split marker, so
`title.split(splitter + part)` finds no occurrence and leaves the title
unchanged. -/
theorem claim_C2_counterexample :
    (parse_title_and_version "Song Title feat. Someone (Remix)".data none).1 =
        "Song Title Feat. Someone".data ∧
      pyContains "feat. someone".data
        (pyLower (parse_title_and_version "Song Title feat. Someone (Remix)".data none).1) =
        true := by decide

/-- Claim C2, amended: `parse_title_and_version` on
"Song Title feat. Someone (Remix)" with no fallback version returns the
version "Remix", but keeps the "feat." clause in the title, returning
"Song Title Feat. Someone". -/
theorem claim_C2 :
    parse_title_and_version "Song Title feat. Someone (Remix)".data none =
      ("Song Title Feat. Someone".data, "Remix".data) := by decide

/-- Claim C4: two albums with present, non-empty and equal `upc` compare
as a match whatever their other fields, and two tracks with present,
non-empty and equal `isrc` compare as a match whatever their other
fields. -/
theorem claim_C4 :
    (∀ (x y : Album) (u : List Char), u ≠ [] → x.upc = some u → y.upc = some u →
      compare_album x y = true) ∧
    (∀ (x y : Track) (i : List Char), i ≠ [] → x.isrc = some i → y.isrc = some i →
      compare_track x y = true) := by
  constructor
  · intro x y u hu hx hy
    have h2 : (truthyOpt x.upc && x.upc == y.upc) = true := by
      rw [hx, hy]
      simp [truthyOpt, List.isEmpty_eq_false, hu]
    unfold compare_album
    by_cases h1 : (x.provider == y.provider && x.item_id == y.item_id) = true
    · rw [if_pos h1]
    · rw [if_neg h1, if_pos h2]
  · intro x y i hi hx hy
    have h2 : (truthyOpt x.isrc && x.isrc == y.isrc) = true := by
      rw [hx, hy]
      simp [truthyOpt, List.isEmpty_eq_false, hi]
    unfold compare_track
    by_cases h1 : (x.provider == y.provider && x.item_id == y.item_id) = true
    · rw [if_pos h1]
    · rw [if_neg h1, if_pos h2]

/-- An album used to instantiate the hypothesised claims. -/
def albumW1 : Album :=
  ⟨"spotify".data, "al1".data, some "0724358811".data, "First".data, [],
    ⟨"Ann North".data⟩, some 1999⟩

/-- An album differing from `albumW1` in every heuristic field but with the
same UPC. -/
def albumW2 : Album :=
  ⟨"qobuz".data, "al2".data, some "0724358811".data, "Second".data, "deluxe".data,
    ⟨"Bob South".data⟩, some 2003⟩

/-- A track used to instantiate the hypothesised claims. -/
def trackW1 : Track :=
  ⟨"spotify".data, "tr1".data, some "USUM71703861".data, "First Song".data, [],
    [⟨"Ann North".data⟩], [], albumW1, 201⟩

/-- A track differing from `trackW1` in every heuristic field but with the
same ISRC. -/
def trackW2 : Track :=
  ⟨"qobuz".data, "tr2".data, some "USUM71703861".data, "Second Song".data, "live".data,
    [⟨"Bob South".data⟩], [], albumW2, 350⟩

/-- Claim C4, witness: the UPC and ISRC overrides at concrete album and
track pairs that differ in every heuristic field. -/
theorem claim_C4_witness :
    compare_album albumW1 albumW2 = true ∧ compare_track trackW1 trackW2 = true :=
  ⟨claim_C4.1 albumW1 albumW2 "0724358811".data (by decide) rfl rfl,
    claim_C4.2 trackW1 trackW2 "USUM71703861".data (by decide) rfl rfl⟩

/-- Claim C5: for tracks not matched by the provider+id or ISRC rules,
with matching names, versions and artists and no album-pair match, a
duration gap of exactly 5 seconds yields a match and a gap of exactly 6
seconds yields no match. -/
theorem claim_C5 : ∀ l r : Track,
    (l.provider == r.provider && l.item_id == r.item_id) = false →
    (truthyOpt l.isrc && l.isrc == r.isrc) = false →
    compare_strings l.name r.name false = true →
    compare_strings l.version r.version false = true →
    compare_artists l.artists r.artists = true →
    compare_albums (resolvedAlbums l) (resolvedAlbums r) = false →
    (|l.duration - r.duration| = 5 → compare_track l r = true) ∧
    (|l.duration - r.duration| = 6 → compare_track l r = false) := by
  intro l r h1 h2 h3 h4 h5 h6
  constructor
  · intro hd
    have h7 : (decide (|l.duration - r.duration| ≤ 5)) = true :=
      decide_eq_true (le_of_eq hd)
    simp [compare_track, h1, h2, h3, h4, h5, h6, h7]
  · intro hd
    have h7 : (decide (|l.duration - r.duration| ≤ 5)) = false := by
      apply decide_eq_false
      rw [hd]
      norm_num
    simp [compare_track, h1, h2, h3, h4, h5, h6, h7]

/-- An album that matches nothing: its name shares no characters with
`albumW1`. -/
def albumW3 : Album :=
  ⟨"tidal".data, "al3".data, none, "Zzz".data, [], ⟨"Cyd East".data⟩, some 2010⟩

/-- A track for the duration-fallback witness: same name, version and
artist as `trackW4`, album that does not match, duration 300 s. -/
def trackW3 : Track :=
  ⟨"spotify".data, "tr3".data, none, "Same Song".data, [], [⟨"Ann North".data⟩],
    [], albumW1, 300⟩

/-- A track for the duration-fallback witness: same name, version and
artist as `trackW3`, album that does not match, duration 305 s. -/
def trackW4 : Track :=
  ⟨"qobuz".data, "tr4".data, none, "Same Song".data, [], [⟨"Ann North".data⟩],
    [], albumW3, 305⟩

/-- Claim C5, witness: a concrete track pair matching on name, version and
artist, with non-matching albums and durations 300 and 305, compares as a
match. -/
theorem claim_C5_witness : compare_track trackW3 trackW4 = true :=
  (claim_C5 trackW3 trackW4 (by decide) (by decide) (by decide) (by decide)
      (by decide) (by decide)).1
    (by
      show |(300:ℚ) - 305| = 5
      rw [abs_sub_comm, show (305:ℚ) - 300 = 5 by norm_num]
      exact abs_of_nonneg (by norm_num))

/-- Claim C6: with `strict = true`, `compare_strings` is true exactly when
the two strings are equal after lowercasing, with no canonicalization
fallback; in particular "Café" and "Cafe" differ strictly but match
non-strictly. -/
theorem claim_C6 :
    (∀ a b : List Char, compare_strings a b true = (pyLower a == pyLower b)) ∧
    compare_strings "Café".data "Cafe".data true = false ∧
    compare_strings "Café".data "Cafe".data false = true := by
  refine ⟨fun a b => ?_, by decide, by decide⟩
  simp [compare_strings]

/-- Claim C9: a non-empty string compares non-strictly equal to the empty
string exactly when its canonical form is empty, and two empty strings
compare equal under either strict flag. -/
theorem claim_C9 :
    (∀ s : List Char, s ≠ [] →
      (compare_strings s [] false = true ↔ get_compare_string s = [])) ∧
    (∀ b : Bool, compare_strings [] [] b = true) := by
  constructor
  · intro s hs
    have hm : (pyLower s == pyLower []) = false := by
      apply beq_false_of_ne
      simp [pyLower, hs]
    have hg : get_compare_string ([] : List Char) = [] := rfl
    simp [compare_strings, hm, hg]
  · intro b
    cases b <;> rfl

/-- Claim C9, witness: the all-punctuation string "!!" canonicalizes to the
empty string and therefore compares non-strictly equal to the empty
string. -/
theorem claim_C9_witness : compare_strings "!!".data [] false = true :=
  (claim_C9.1 "!!".data (by decide)).mpr (by decide)

/-- Claim C10: `parse_title_and_version` always returns a pair; every
`[0]` indexing of a split result is in range since a split list is never
empty, and the `[1]` indexing inside `get_version_substitute` is reachable
only under the `startswith "the "` guard, under which the split has at
least two elements. -/
theorem claim_C10 :
    (∀ (t : List Char) (v : Option (List Char)),
      ∃ p : List Char × List Char, parse_title_and_version t v = p) ∧
    (∀ sep s : List Char, 1 ≤ (pySplit sep s).length) ∧
    (∀ v : List Char, leadsWith "the ".data v = true →
      2 ≤ (pySplit "the ".data v).length) :=
  ⟨fun t v => ⟨parse_title_and_version t v, rfl⟩,
    one_le_pySplit_length,
    fun v h => two_le_pySplit_length_of_leads "the ".data v (by decide) h⟩

/-- Claim C10, witness: the guarded `[1]` indexing at the concrete input
"the best". -/
theorem claim_C10_witness : 2 ≤ (pySplit "the ".data "the best".data).length :=
  claim_C10.2.2 "the best".data (by decide)

/-- Claim C3, counterexample: on "the a the b" (which no other
substitution rule touches) the claim predicts the full remainder
"a the b", but `get_version_substitute` splits on every occurrence of
"the " and keeps element 1, returning "a". -/
theorem claim_C3_counterexample :
    get_version_substitute "the a the b".data = "a".data ∧
      "a".data ≠ "a the b".data := by decide

/-- Claim C3, amended: step 2 drops the leading "the " but keeps the
remainder only up to the next occurrence of "the " (the code splits on
every occurrence and keeps element 1); when the remainder contains no
further "the " — and no other substitution rule fires — the remainder is
returned unchanged (stripped). -/
theorem claim_C3 : ∀ s : List Char,
    pyContains "edition".data (pyLower s) = false →
    pyContains "edit".data (pyLower s) = false →
    leadsWith "the ".data (pyLower s) = true →
    pyContains "the ".data ((pyLower s).drop 4) = false →
    pyContains "radio mix".data ((pyLower s).drop 4) = false →
    pyContains "video mix".data ((pyLower s).drop 4) = false →
    pyContains "spanglish".data ((pyLower s).drop 4) = false →
    pyContains "spanish".data ((pyLower s).drop 4) = false →
    trailsWith "remaster".data ((pyLower s).drop 4) = false →
    get_version_substitute s = pyStrip ((pyLower s).drop 4) := by
  intro s h1 h2 h3 h4 h5 h6 h7 h8 h9
  have hsplit : pySplit "the ".data (pyLower s) = [[], (pyLower s).drop 4] := by
    have hlen : ("the ".data).length = 4 := rfl
    have happ := leadsWith_append "the ".data (pyLower s) h3
    rw [hlen] at happ
    calc pySplit "the ".data (pyLower s)
        = pySplit "the ".data ("the ".data ++ (pyLower s).drop 4) := by rw [← happ]
      _ = [[], (pyLower s).drop 4] :=
        pySplit_of_leads_of_no_more "the ".data ((pyLower s).drop 4) (by decide) h4
  simp only [get_version_substitute, h1, h2, Bool.or_self, Bool.false_eq_true,
    if_false, h3, if_true, hsplit, List.getD_cons_succ, List.getD_cons_zero,
    h5, h6, h7, h8, h9]

/-- Claim C3, witness: on "the best of all", whose remainder contains no
further "the ", exactly the leading prefix is dropped. -/
theorem claim_C3_witness :
    get_version_substitute "the best of all".data = "best of all".data := by
  rw [claim_C3 "the best of all".data (by decide) (by decide) (by decide) (by decide)
    (by decide) (by decide) (by decide) (by decide) (by decide)]
  decide

theorem compare_strings_symm (a b : List Char) (strict : Bool) :
    compare_strings a b strict = compare_strings b a strict := by
  simp only [compare_strings, beqComm (pyLower b) (pyLower a),
    beqComm (get_compare_string b) (get_compare_string a)]

theorem any_any_comm {α β : Type} (l : List α) (m : List β) (P : α → β → Bool) :
    (l.any fun a => m.any fun b => P a b) = (m.any fun b => l.any fun a => P a b) := by
  rw [Bool.eq_iff_iff]
  simp only [List.any_eq_true]
  tauto

theorem any_congr_on {α : Type} (l : List α) (p q : α → Bool)
    (h : ∀ a ∈ l, p a = q a) : l.any p = l.any q := by
  induction l with
  | nil => rfl
  | cons a as ih =>
    simp only [List.any_cons, h a (List.mem_cons_self a as)]
    rw [ih fun x hx => h x (List.mem_cons_of_mem a hx)]

theorem compare_artists_symm (ls rs : List Artist) :
    compare_artists ls rs = compare_artists rs ls := by
  unfold compare_artists
  rw [any_any_comm]
  exact any_congr_on rs _ _ fun r _ => any_congr_on ls _ _ fun l _ =>
    compare_strings_symm l.name r.name false

theorem compare_album_iff (x y : Album) : compare_album x y = true ↔
    (x.provider = y.provider ∧ x.item_id = y.item_id) ∨
    (truthyOpt x.upc = true ∧ x.upc = y.upc) ∨
    (compare_strings x.name y.name false = true ∧
      compare_strings x.version y.version false = true ∧
      compare_strings x.artist.name y.artist.name false = true ∧
      x.year = y.year) := by
  unfold compare_album
  split_ifs with h1 h2 h3 h4 h5 h6 <;>
    simp only [Bool.and_eq_true, beq_iff_eq, Bool.not_eq_true', Bool.eq_false_iff,
      bne_iff_ne, Bool.or_eq_true, decide_eq_true_eq, eq_self_iff_true, true_iff,
      iff_true, Bool.false_eq_true, false_iff, iff_false, not_or, ne_eq] at * <;>
    tauto

theorem compare_album_symm (x y : Album) : compare_album x y = compare_album y x := by
  rw [Bool.eq_iff_iff, compare_album_iff, compare_album_iff]
  have key : ∀ a b : Album,
      ((a.provider = b.provider ∧ a.item_id = b.item_id) ∨
        (truthyOpt a.upc = true ∧ a.upc = b.upc) ∨
        (compare_strings a.name b.name false = true ∧
          compare_strings a.version b.version false = true ∧
          compare_strings a.artist.name b.artist.name false = true ∧
          a.year = b.year)) →
      ((b.provider = a.provider ∧ b.item_id = a.item_id) ∨
        (truthyOpt b.upc = true ∧ b.upc = a.upc) ∨
        (compare_strings b.name a.name false = true ∧
          compare_strings b.version a.version false = true ∧
          compare_strings b.artist.name a.artist.name false = true ∧
          b.year = a.year)) := by
    rintro a b (⟨u1, u2⟩ | ⟨u1, u2⟩ | ⟨u1, u2, u3, u4⟩)
    · exact Or.inl ⟨u1.symm, u2.symm⟩
    · exact Or.inr (Or.inl ⟨u2 ▸ u1, u2.symm⟩)
    · refine Or.inr (Or.inr ⟨?_, ?_, ?_, u4.symm⟩)
      · rw [compare_strings_symm]; exact u1
      · rw [compare_strings_symm]; exact u2
      · rw [compare_strings_symm]; exact u3
  exact ⟨key x y, key y x⟩

theorem compare_albums_symm (ls rs : List Album) :
    compare_albums ls rs = compare_albums rs ls := by
  unfold compare_albums
  rw [any_any_comm]
  exact any_congr_on rs _ _ fun r _ => any_congr_on ls _ _ fun l _ =>
    compare_album_symm l r

theorem compare_track_iff (x y : Track) : compare_track x y = true ↔
    (x.provider = y.provider ∧ x.item_id = y.item_id) ∨
    (truthyOpt x.isrc = true ∧ x.isrc = y.isrc) ∨
    (compare_strings x.name y.name false = true ∧
      compare_strings x.version y.version false = true ∧
      compare_artists x.artists y.artists = true ∧
      (compare_albums (resolvedAlbums x) (resolvedAlbums y) = true ∨
        |x.duration - y.duration| ≤ 5)) := by
  unfold compare_track
  split_ifs with h1 h2 h3 h4 h5 h6 <;>
    simp only [Bool.and_eq_true, beq_iff_eq, Bool.not_eq_true', Bool.eq_false_iff,
      bne_iff_ne, Bool.or_eq_true, decide_eq_true_eq, eq_self_iff_true, true_iff,
      iff_true, Bool.false_eq_true, false_iff, iff_false, not_or, ne_eq] at * <;>
    tauto

theorem compare_track_symm (x y : Track) : compare_track x y = compare_track y x := by
  rw [Bool.eq_iff_iff, compare_track_iff, compare_track_iff]
  have key : ∀ a b : Track,
      ((a.provider = b.provider ∧ a.item_id = b.item_id) ∨
        (truthyOpt a.isrc = true ∧ a.isrc = b.isrc) ∨
        (compare_strings a.name b.name false = true ∧
          compare_strings a.version b.version false = true ∧
          compare_artists a.artists b.artists = true ∧
          (compare_albums (resolvedAlbums a) (resolvedAlbums b) = true ∨
            |a.duration - b.duration| ≤ 5))) →
      ((b.provider = a.provider ∧ b.item_id = a.item_id) ∨
        (truthyOpt b.isrc = true ∧ b.isrc = a.isrc) ∨
        (compare_strings b.name a.name false = true ∧
          compare_strings b.version a.version false = true ∧
          compare_artists b.artists a.artists = true ∧
          (compare_albums (resolvedAlbums b) (resolvedAlbums a) = true ∨
            |b.duration - a.duration| ≤ 5))) := by
    rintro a b (⟨u1, u2⟩ | ⟨u1, u2⟩ | ⟨u1, u2, u3, u4⟩)
    · exact Or.inl ⟨u1.symm, u2.symm⟩
    · exact Or.inr (Or.inl ⟨u2 ▸ u1, u2.symm⟩)
    · refine Or.inr (Or.inr ⟨?_, ?_, ?_, ?_⟩)
      · rw [compare_strings_symm]; exact u1
      · rw [compare_strings_symm]; exact u2
      · rw [compare_artists_symm]; exact u3
      · rcases u4 with u4 | u4
        · left; rw [compare_albums_symm]; exact u4
        · right; rw [abs_sub_comm]; exact u4
  exact ⟨key x y, key y x⟩

/-- Claim C7: all three comparison entry points are symmetric:
`compare_strings` under either strict flag, `compare_album` and
`compare_track`. -/
theorem claim_C7 :
    (∀ (a b : List Char) (strict : Bool),
      compare_strings a b strict = compare_strings b a strict) ∧
    (∀ x y : Album, compare_album x y = compare_album y x) ∧
    (∀ x y : Track, compare_track x y = compare_track y x) :=
  ⟨compare_strings_symm, compare_album_symm, compare_track_symm⟩

theorem mem_gcs_norm (s : List Char) (c : Char) (hc : c ∈ get_compare_string s) :
    isAsciiAlnum c = true ∧ ¬(65 ≤ c.toNat ∧ c.toNat ≤ 90) := by
  unfold get_compare_string pyLower at hc
  rcases List.mem_map.mp hc with ⟨d, hd, rfl⟩
  have hda : isAsciiAlnum d = true := List.of_mem_filter hd
  have hrange := (isAsciiAlnum_iff d).mp hda
  have ht := toNat_lowerChar d
  have key : (97 ≤ (lowerChar d).toNat ∧ (lowerChar d).toNat ≤ 122) ∨
      (48 ≤ (lowerChar d).toNat ∧ (lowerChar d).toNat ≤ 57) := by
    by_cases hu : 65 ≤ d.toNat ∧ d.toNat ≤ 90
    · rw [ht, if_pos hu]; left; omega
    · rw [ht, if_neg hu]
      rcases hrange with h | h | h
      · exact absurd h hu
      · exact Or.inl h
      · exact Or.inr h
  constructor
  · rw [isAsciiAlnum_iff]
    tauto
  · rcases key with h | h <;> omega

theorem unidecodeChar_of_ascii (c : Char) (h : c.toNat < 128) :
    unidecodeChar c = [c] := by
  unfold unidecodeChar
  rw [if_pos h]

/-- Claim C8: the canonicalization `get_compare_string` is idempotent. -/
theorem claim_C8 (s : List Char) :
    get_compare_string (get_compare_string s) = get_compare_string s := by
  have hmem := mem_gcs_norm s
  have h1 : (get_compare_string s).flatMap unidecodeChar = get_compare_string s :=
    flatMap_id_on unidecodeChar (get_compare_string s) fun c hc => by
      have halnum := (isAsciiAlnum_iff c).mp (hmem c hc).1
      apply unidecodeChar_of_ascii
      omega
  have h2 : (get_compare_string s).filter isAsciiAlnum = get_compare_string s :=
    List.filter_eq_self.mpr fun c hc => (hmem c hc).1
  calc get_compare_string (get_compare_string s)
      = pyLower (((get_compare_string s).flatMap unidecodeChar).filter isAsciiAlnum) :=
        rfl
    _ = pyLower ((get_compare_string s).filter isAsciiAlnum) := by rw [h1]
    _ = pyLower (get_compare_string s) := by rw [h2]
    _ = get_compare_string s :=
        map_id_on lowerChar (get_compare_string s) fun c hc =>
          lowerChar_eq_self c (hmem c hc).2

end MusicAssistant
